import Mathlib

/-!
Shallow embedding of the venn-onboarding field-validation core:
the corporation-number domain classifiers (src/modules/domain/corpNo.ts,
re-exported through src/modules/index.ts), the simple local field machine
(src/modules/fields/useSimpleField.ts), the remote-enhanced corporation-number
field machine and its effect layer (src/modules/fields/useCorpNoField.ts),
the TTL cache (src/modules/cache/inMemoryCorpNoCache.ts), and the response
classification of the corporation-number I/O adapter
(src/modules/io/corpFetcher.ts).

Strings are modelled by Lean `String` (a list of characters); JavaScript
`string.length` counts UTF-16 code units, which agrees with the character
count on every input considered here.  Timestamps (`Date.now()`) are `Nat`
parameters threaded through the steps.
-/

namespace VennOnboarding

/- ### Corporation-number domain classifiers -/

inductive CorpNoLocalIssue : Type
  | empty
  | contains_non_digit
  | too_short
  | too_long
deriving DecidableEq, Repr

/-- The regex test `/^\d+$/.test(s)` of `whyNotPlausibleCorpNo`, for a
nonempty `s`, holds exactly when every character is an ASCII digit
(`\d` is `[0-9]`); the branch below is only reached for nonempty input. -/
def digitsOnly (s : String) : Bool :=
  s.data.all Char.isDigit

/-- `whyNotPlausibleCorpNo` (src/modules/index.ts lines 309-327):
emptiness first, then digit-only composition, then length versus 9. -/
def whyNotPlausibleCorpNo (s : String) : Option CorpNoLocalIssue :=
  if s.length = 0 then some .empty
  else if !digitsOnly s then some .contains_non_digit
  else if s.length < 9 then some .too_short
  else if 9 < s.length then some .too_long
  else none

/-- `isPlausibleCorpNo` (src/modules/index.ts lines 333-335):
defined as `whyNotPlausibleCorpNo(s) === null`. -/
def isPlausibleCorpNo (s : String) : Bool :=
  whyNotPlausibleCorpNo s == none

/-- `formatCorpNoLocalIssue` (src/modules/index.ts lines 352-363). -/
def formatCorpNoLocalIssue : CorpNoLocalIssue → String
  | .empty => "Required"
  | .contains_non_digit => "Only digits"
  | .too_short => "9 digits"
  | .too_long => "9 digits"

/-- `toPlausibleCorpNo` (src/modules/index.ts lines 341-347).  The TS
function throws on a non-plausible input; the thrown message is modelled
by `Except.error`. -/
def toPlausibleCorpNo (s : String) : Except String String :=
  match whyNotPlausibleCorpNo s with
  | some issue =>
      .error ("Cannot convert to PlausibleCorpNo: " ++ formatCorpNoLocalIssue issue)
  | none => .ok s

/-- A string of exactly 9 ASCII digits: the shape a plausible corporation
number is specified to have. -/
def nineDigitString (s : String) : Bool :=
  (s.length == 9) && digitsOnly s

/- ### Name validator (src/modules/domain/simple.ts lines 17-25) -/

/-- The character set matched by the JavaScript `\s` class (with the `u`
flag) and stripped by `String.prototype.trim`: WhiteSpace and
LineTerminator code points. -/
def isJsWhitespace (c : Char) : Bool :=
  c = ' ' || c = Char.ofNat 9 || c = Char.ofNat 10 || c = Char.ofNat 11 ||
  c = Char.ofNat 12 || c = Char.ofNat 13 || c = Char.ofNat 0xa0 ||
  c = Char.ofNat 0x1680 || (0x2000 ≤ c.toNat && c.toNat ≤ 0x200a) ||
  c = Char.ofNat 0x2028 || c = Char.ofNat 0x2029 || c = Char.ofNat 0x202f ||
  c = Char.ofNat 0x205f || c = Char.ofNat 0x3000 || c = Char.ofNat 0xfeff

/-- `String.prototype.trim`: strip leading and trailing whitespace. -/
def jsTrim (l : List Char) : List Char :=
  ((l.dropWhile isJsWhitespace).reverse.dropWhile isJsWhitespace).reverse

/-- The character class `[\p{L}\s'-]` of `isValidName`, parametric in the
Unicode letter predicate `letter` (the `\p{L}` category, which both the
source regex and the specification refer to as a black box). -/
def jsNameCharClass (letter : Char → Bool) (c : Char) : Bool :=
  letter c || isJsWhitespace c || c = '-' || c = Char.ofNat 39

/-- `isValidName` (src/modules/domain/simple.ts lines 17-25): trim, reject
length 0 or above 50, then require every character to match `[\p{L}\s'-]`. -/
def isValidName (letter : Char → Bool) (s : String) : Bool :=
  let trimmed := jsTrim s.data
  if trimmed.length = 0 || 50 < trimmed.length then false
  else trimmed.all (jsNameCharClass letter)

/-- Modelled from the claim wording of C7 (not from the source): after
trimming, length between 1 and 50 and every character a Unicode letter,
a space, a hyphen, or an apostrophe. -/
def specValidNameSpaceOnly (letter : Char → Bool) (s : String) : Prop :=
  1 ≤ (jsTrim s.data).length ∧ (jsTrim s.data).length ≤ 50 ∧
    ∀ c ∈ jsTrim s.data,
      letter c = true ∨ c = ' ' ∨ c = '-' ∨ c = Char.ofNat 39

/-- The amended specification predicate: as `specValidNameSpaceOnly`, but
allowing every JavaScript whitespace character (the `\s` class) rather
than only the space character. -/
def specValidNameWhitespace (letter : Char → Bool) (s : String) : Prop :=
  1 ≤ (jsTrim s.data).length ∧ (jsTrim s.data).length ≤ 50 ∧
    ∀ c ∈ jsTrim s.data,
      letter c = true ∨ isJsWhitespace c = true ∨ c = '-' ∨ c = Char.ofNat 39

/-- `isValidPhoneCA` (src/modules/domain/simple.ts lines 35-37):
`/^\+1\d{10}$/`. -/
def isValidPhoneCA (s : String) : Bool :=
  match s.data with
  | '+' :: '1' :: rest => (rest.length == 10) && rest.all Char.isDigit
  | _ => false

/- ### Simple (local) field machine (src/modules/fields/useSimpleField.ts) -/

inductive SimpleFieldTag : Type
  | empty
  | active
  | invalid
  | valid
deriving DecidableEq, Repr

/-- `SimpleFieldState` (src/modules/fields/useSimpleField.ts lines 16-22).
The `issue` field has TS type `"invalid" | null`, modelled as an optional
string whose only inhabited value is `"invalid"`. -/
structure SimpleFieldState : Type where
  tag : SimpleFieldTag
  value : String
  lastUpdatedAt : Nat
  lastBlurAt : Option Nat
  issue : Option String
deriving DecidableEq, Repr

inductive SimpleFieldEvent : Type
  | change (value : String) (timestamp : Nat)
  | blur (timestamp : Nat)
  | focus (timestamp : Nat)
  | evaluate (timestamp : Nat)
deriving DecidableEq, Repr

/-- `createInitialState` (src/modules/fields/useSimpleField.ts lines 34-42). -/
def simpleInitialState : SimpleFieldState :=
  { tag := .empty, value := "", lastUpdatedAt := 0, lastBlurAt := none, issue := none }

/-- `simpleFieldReducer` (src/modules/fields/useSimpleField.ts lines 48-111).
In the `focus` case, `state.value ? "active" : "empty"` tests string
truthiness, i.e. non-emptiness. -/
def simpleFieldReducer (validator : String → Bool) (state : SimpleFieldState)
    (event : SimpleFieldEvent) : SimpleFieldState :=
  match event with
  | .change value timestamp =>
      if value.length = 0 then
        { tag := .empty, value := value, lastUpdatedAt := timestamp,
          lastBlurAt := state.lastBlurAt, issue := none }
      else
        { tag := .active, value := value, lastUpdatedAt := timestamp,
          lastBlurAt := state.lastBlurAt, issue := none }
  | .blur timestamp =>
      { state with lastBlurAt := some timestamp }
  | .focus _ =>
      if state.tag = .invalid then
        { state with
          tag := if state.value ≠ "" then .active else .empty,
          issue := none }
      else state
  | .evaluate timestamp =>
      let isValid := validator state.value
      { state with
        tag := if isValid then .valid else .invalid,
        issue := if isValid then none else some "invalid",
        lastUpdatedAt := timestamp }

/-- Run the simple field machine from the initial state over a sequence of
events (each dispatch is synchronous and atomic). -/
def runSimple (validator : String → Bool) (events : List SimpleFieldEvent) :
    SimpleFieldState :=
  events.foldl (simpleFieldReducer validator) simpleInitialState

/- ### Corporation-number field machine (src/modules/fields/useCorpNoField.ts) -/

inductive CorpNoFieldTag : Type
  | empty
  | active
  | implausible
  | checking
  | valid
  | invalid
  | error
deriving DecidableEq, Repr

inductive CorpNoErrorKind : Type
  | network
  | timeout
  | server
deriving DecidableEq, Repr

/-- `CorpNoValidationResult` (src/modules/io/corpFetcher.ts lines 161-164).
The branded `PlausibleCorpNo` is an ordinary string at runtime. -/
inductive CorpNoValidationResult : Type
  | valid (corporationNumber : String)
  | invalid (message : String)
  | error (error : CorpNoErrorKind) (message : Option String)
deriving DecidableEq, Repr

/-- `CorpNoFieldState` (src/modules/fields/useCorpNoField.ts lines 32-41). -/
structure CorpNoFieldState : Type where
  tag : CorpNoFieldTag
  value : String
  lastUpdatedAt : Nat
  lastBlurAt : Option Nat
  lastCheckedAt : Option Nat
  localIssue : Option CorpNoLocalIssue
  remoteMessage : Option String
  currentValue : Option String
deriving DecidableEq, Repr

inductive CorpNoFieldEvent : Type
  | change (value : String) (timestamp : Nat)
  | blur (timestamp : Nat)
  | focus (timestamp : Nat)
  | evaluate (timestamp : Nat)
  | remoteStart (currentValue : String) (timestamp : Nat)
  | remoteOk (result : CorpNoValidationResult) (timestamp : Nat)
  | remoteInvalid (result : CorpNoValidationResult) (timestamp : Nat)
  | remoteError (result : CorpNoValidationResult) (timestamp : Nat)
deriving DecidableEq, Repr

/-- `createInitialState` (src/modules/fields/useCorpNoField.ts lines 57-68). -/
def corpNoInitialState : CorpNoFieldState :=
  { tag := .empty, value := "", lastUpdatedAt := 0, lastBlurAt := none,
    lastCheckedAt := none, localIssue := none, remoteMessage := none,
    currentValue := none }

def corpNoErrorKindText : CorpNoErrorKind → String
  | .network => "network"
  | .timeout => "timeout"
  | .server => "server"

/-- `result.message || result.error + " error occurred"` in the
`remote:error` case: JavaScript `||` falls back both for a missing and for
an empty-string message. -/
def corpNoErrorMessage (kind : CorpNoErrorKind) (message : Option String) : String :=
  match message with
  | some m => if m.length = 0 then corpNoErrorKindText kind ++ " error occurred" else m
  | none => corpNoErrorKindText kind ++ " error occurred"

/-- `corpNoFieldReducer` (src/modules/fields/useCorpNoField.ts lines 74-240).
In the `evaluate` case the source calls `toPlausibleCorpNo(state.value)`
inside the branch where `whyNotPlausibleCorpNo(state.value) === null`, where
it provably returns the string unchanged (`toPlausibleCorpNo_of_plausible`
below), so `currentValue` is set to `some state.value`. -/
def corpNoFieldReducer (state : CorpNoFieldState) (event : CorpNoFieldEvent) :
    CorpNoFieldState :=
  match event with
  | .change value timestamp =>
      if value.length = 0 then
        { tag := .empty, value := value, lastUpdatedAt := timestamp,
          lastBlurAt := state.lastBlurAt, lastCheckedAt := state.lastCheckedAt,
          localIssue := none, remoteMessage := none, currentValue := none }
      else
        { tag := .active, value := value, lastUpdatedAt := timestamp,
          lastBlurAt := state.lastBlurAt, lastCheckedAt := state.lastCheckedAt,
          localIssue := none, remoteMessage := none, currentValue := none }
  | .blur timestamp =>
      { state with lastBlurAt := some timestamp }
  | .focus _ =>
      if state.tag = .invalid ∨ state.tag = .error ∨ state.tag = CorpNoFieldTag.implausible then
        { state with
          tag := if state.value ≠ "" then .active else .empty,
          localIssue := none,
          remoteMessage := none }
      else state
  | .evaluate timestamp =>
      if state.tag = .active ∨ state.tag = CorpNoFieldTag.implausible then
        match whyNotPlausibleCorpNo state.value with
        | some issue =>
            { state with
              tag := CorpNoFieldTag.implausible, localIssue := some issue,
              lastUpdatedAt := timestamp }
        | none =>
            { state with
              tag := .checking, localIssue := none,
              currentValue := some state.value, lastUpdatedAt := timestamp }
      else state
  | .remoteStart currentValue timestamp =>
      if state.tag = .checking then
        { state with currentValue := some currentValue, lastUpdatedAt := timestamp }
      else state
  | .remoteOk result timestamp =>
      if state.tag = .checking then
        match result with
        | .valid _ =>
            { state with
              tag := .valid, lastCheckedAt := some timestamp,
              lastUpdatedAt := timestamp, remoteMessage := none }
        | _ => state
      else state
  | .remoteInvalid result timestamp =>
      if state.tag = .checking then
        match result with
        | .invalid message =>
            { state with
              tag := .invalid, lastCheckedAt := some timestamp,
              lastUpdatedAt := timestamp, remoteMessage := some message }
        | _ => state
      else state
  | .remoteError result timestamp =>
      if state.tag = .checking then
        match result with
        | .error kind message =>
            { state with
              tag := .error, lastCheckedAt := some timestamp,
              lastUpdatedAt := timestamp,
              remoteMessage := some (corpNoErrorMessage kind message) }
        | _ => state
      else state

/-- `isTouched` (src/modules/fields/useCorpNoField.ts line 533):
`state.lastBlurAt !== null || state.value.length > 0`. -/
def corpNoIsTouched (state : CorpNoFieldState) : Bool :=
  state.lastBlurAt.isSome || decide (0 < state.value.length)

/- ### TTL cache (src/modules/cache/inMemoryCorpNoCache.ts) -/

/-- `CacheEntry` (src/modules/cache/inMemoryCorpNoCache.ts lines 19-22). -/
structure CacheEntry : Type where
  result : CorpNoValidationResult
  expiresAt : Nat
deriving DecidableEq, Repr

/-- The private `Map<PlausibleCorpNo, CacheEntry>` of `InMemoryCorpNoCache`,
modelled as an association list with unique keys. -/
abbrev CorpNoCacheMap : Type := List (String × CacheEntry)

/-- `InMemoryCorpNoCache.get` (lines 41-54): a missing entry reads as
absent; an entry with `Date.now() > entry.expiresAt` is deleted and reads
as absent; otherwise the stored result is returned.  Returns the result
together with the possibly-evicted map. -/
def cacheGet (c : CorpNoCacheMap) (k : String) (now : Nat) :
    Option CorpNoValidationResult × CorpNoCacheMap :=
  match c.find? (fun p => p.1 == k) with
  | none => (none, c)
  | some p =>
      if p.2.expiresAt < now then (none, c.filter (fun q => !(q.1 == k)))
      else (some p.2.result, c)

/-- `InMemoryCorpNoCache.set` (lines 56-68): stores the result with
`expiresAt = Date.now() + ttlMs`, replacing any entry under the same key. -/
def cacheSet (c : CorpNoCacheMap) (k : String) (r : CorpNoValidationResult)
    (ttl now : Nat) : CorpNoCacheMap :=
  (k, { result := r, expiresAt := now + ttl }) :: c.filter (fun q => !(q.1 == k))

def resultIsError : CorpNoValidationResult → Bool
  | .error _ _ => true
  | _ => false

/-- The cache-write guard of `performRequest`
(src/modules/fields/useCorpNoField.ts line 408):
`result.kind === "valid" || result.kind === "invalid"`. -/
def resultCacheable : CorpNoValidationResult → Bool
  | .valid _ => true
  | .invalid _ => true
  | .error _ _ => false

/- ### System model: machine plus effect layer of useCorpNoField

The hook runs on a single logical thread: every dispatch and every React
effect executes synchronously and atomically; only the network await
suspends.  A system state carries the reducer state, the
`currentRequestRef` bookkeeping (request id, its value, whether its
`AbortController` has fired), the monotonic `requestIdCounter`, and the
shared cache.  Each request ever issued is kept in `reqs`; `delivered`
records that its promise has settled (a promise settles at most once). -/

/-- `RequestTracker` (src/modules/fields/useCorpNoField.ts lines 269-273)
together with the fired/settled status of its controller and promise. -/
structure ReqState : Type where
  id : Nat
  value : String
  aborted : Bool
  delivered : Bool
deriving DecidableEq, Repr

structure CorpNoSys : Type where
  fld : CorpNoFieldState
  currentReq : Option Nat
  reqs : List ReqState
  counter : Nat
  cache : CorpNoCacheMap
deriving DecidableEq, Repr

def initCorpNoSys : CorpNoSys :=
  { fld := corpNoInitialState, currentReq := none, reqs := [], counter := 0,
    cache := [] }

/-- Abort the request recorded in `currentRequestRef` (its controller
fires) and clear the ref. -/
def abortCurrent (s : CorpNoSys) : CorpNoSys :=
  match s.currentReq with
  | none => s
  | some i =>
      { s with
        currentReq := none,
        reqs := s.reqs.map (fun q => if q.id == i then { q with aborted := true } else q) }

/-- The abort-on-value-change effect (src/modules/fields/useCorpNoField.ts
lines 463-476): whenever the field is in `active` or `empty`, the current
request is aborted and the ref cleared.  (Aborting when no request is
current is a no-op, so applying this after every dispatch is faithful.) -/
def abortOnLocalTag (s : CorpNoSys) : CorpNoSys :=
  if s.fld.tag = .active ∨ s.fld.tag = .empty then abortCurrent s else s

/-- Dispatch of the terminal event matching a resolution, as in the
cache-hit branch (lines 340-358) and `performRequest` (lines 412-431). -/
def terminalEventFor (r : CorpNoValidationResult) (t : Nat) : CorpNoFieldEvent :=
  match r with
  | .valid _ => .remoteOk r t
  | .invalid _ => .remoteInvalid r t
  | .error _ _ => .remoteError r t

/-- The terminal tag a resolution of the given kind drives the machine to
from `checking`. -/
def terminalTagFor : CorpNoValidationResult → CorpNoFieldTag
  | .valid _ => .valid
  | .invalid _ => .invalid
  | .error _ _ => .error

/-- The remote-resolution effect on entering `checking`
(src/modules/fields/useCorpNoField.ts lines 330-461): consult the cache
and on a hit dispatch the terminal event immediately; on a miss abort any
existing request, allocate the next request id, record the new tracker,
dispatch `remote:start` and launch the fetch (whose resolution is the
separate `deliverResult` step).  The `validateNow` awaiter bookkeeping is
not modelled (no claim concerns it). -/
def checkingEffect (now _ttl : Nat) (s : CorpNoSys) : CorpNoSys :=
  if s.fld.tag = .checking then
    match s.fld.currentValue with
    | some v =>
        match cacheGet s.cache v now with
        | (some r, c1) =>
            { s with cache := c1, fld := corpNoFieldReducer s.fld (terminalEventFor r now) }
        | (none, c1) =>
            let s1 := abortCurrent { s with cache := c1 }
            let newId := s1.counter + 1
            { s1 with
              counter := newId,
              reqs := s1.reqs ++ [{ id := newId, value := v, aborted := false, delivered := false }],
              currentReq := some newId,
              fld := corpNoFieldReducer s1.fld (.remoteStart v now) }
    | none => s
  else s

def markDelivered (i : Nat) (l : List ReqState) : List ReqState :=
  l.map (fun q => if q.id == i then { q with delivered := true } else q)

/-- Resolution of the fetch launched for request `i`
(`performRequest`, src/modules/fields/useCorpNoField.ts lines 401-449):
the handler runs only when the promise settles (once), and it dispatches —
after writing a cacheable outcome into the cache — only if
`currentRequestRef.current?.id === requestId` and the request's own
cancellation signal has not fired; otherwise the resolution is discarded.
A rejected fetch reaching the catch block dispatches `remote:error` under
the same guard, covered here by taking `r` of the `error` kind. -/
def deliverResult (i : Nat) (r : CorpNoValidationResult) (now ttl : Nat)
    (s : CorpNoSys) : CorpNoSys :=
  match s.reqs.find? (fun q => q.id == i) with
  | none => s
  | some q =>
      if q.delivered then s
      else
        let s1 := { s with reqs := markDelivered i s.reqs }
        if s.currentReq = some i ∧ q.aborted = false then
          let c1 := if resultCacheable r then cacheSet s.cache q.value r ttl now else s.cache
          { s1 with cache := c1, fld := corpNoFieldReducer s.fld (terminalEventFor r now) }
        else s1

/-- One atomic scheduling step of the hook: a user event dispatch together
with the effects it synchronously triggers, or the resolution of an
outstanding fetch.  `evaluate` steps may occur at any point, covering both
the idle-timer and the blur-edge triggers. -/
inductive CorpStep : Type
  | change (value : String) (t : Nat)
  | blur (t : Nat)
  | focus (t : Nat)
  | evaluate (t now : Nat)
  | deliver (i : Nat) (r : CorpNoValidationResult) (now : Nat)
deriving DecidableEq, Repr

/-- Apply one step.  The remote-resolution effect re-runs exactly when its
dependencies `[state.tag, state.currentValue]` change into the `checking`
shape, i.e. on a non-`checking` → `checking` transition (the only way those
dependencies can change into it). -/
def corpStep (ttl : Nat) (s : CorpNoSys) : CorpStep → CorpNoSys
  | .change v t => abortOnLocalTag { s with fld := corpNoFieldReducer s.fld (.change v t) }
  | .blur t => { s with fld := corpNoFieldReducer s.fld (.blur t) }
  | .focus t => abortOnLocalTag { s with fld := corpNoFieldReducer s.fld (.focus t) }
  | .evaluate t now =>
      let fld2 := corpNoFieldReducer s.fld (.evaluate t)
      let s2 := { s with fld := fld2 }
      if s.fld.tag ≠ .checking ∧ fld2.tag = .checking then checkingEffect now ttl s2
      else s2
  | .deliver i r now => deliverResult i r now ttl s

/-- Run the system from its initial state over a schedule of steps. -/
def runCorpSys (ttl : Nat) (steps : List CorpStep) : CorpNoSys :=
  steps.foldl (corpStep ttl) initCorpNoSys

/- ### Scenario schedules used by individual claims -/

/-- Cancellation-race schedule: a remote check is started for value A
(request 1), then the value changes to B and a new check starts
(request 2) before request 1 resolves. -/
def raceSteps : List CorpStep :=
  [.change "111111111" 1, .evaluate 2 3, .change "222222222" 4, .evaluate 5 6]

def raceSys : CorpNoSys := runCorpSys 1000 raceSteps

/-- Reachable schedule putting the field in `invalid` and then focusing it:
the remote check for "123456789" resolves as a business rejection, after
which the user focuses the field. -/
def focusAfterInvalidSteps : List CorpStep :=
  [.change "123456789" 1, .evaluate 2 3, .deliver 1 (.invalid "not found") 4, .focus 5]

/-- Cache round-trip schedule, hit case: a check of "123456789" resolves
`valid` at time 4 with TTL 100 (entry expires at 104); the value is
re-entered and re-evaluated with the effect running at time 104, still
within the TTL window. -/
def cacheHitSteps : List CorpStep :=
  [.change "123456789" 1, .evaluate 2 3, .deliver 1 (.valid "123456789") 4,
   .change "123456789" 5, .evaluate 6 104]

/-- Cache round-trip schedule, expiry case: as `cacheHitSteps` but the
second evaluation's effect runs at time 105, after the entry expired. -/
def cacheExpiredSteps : List CorpStep :=
  [.change "123456789" 1, .evaluate 2 3, .deliver 1 (.valid "123456789") 4,
   .change "123456789" 5, .evaluate 6 105]

/-- The cache state right after a `valid` outcome for `v` was stored at
time `t0` with time-to-live `ttl`. -/
def cachedValidAt (v : String) (t0 ttl : Nat) : CorpNoCacheMap :=
  cacheSet [] v (.valid v) ttl t0

/-- The cache-consult-then-fetch decision of the remote-resolution effect
(src/modules/fields/useCorpNoField.ts lines 330-461), abstracted over a
pure adapter: on a cache hit the stored outcome is used and the adapter is
not invoked (third component 0); on a miss the adapter is invoked (third
component 1) and a cacheable outcome is written back with the TTL. -/
def resolveCheck (fetcher : String → CorpNoValidationResult) (c : CorpNoCacheMap)
    (v : String) (now ttl : Nat) :
    CorpNoValidationResult × CorpNoCacheMap × Nat :=
  match cacheGet c v now with
  | (some r, c1) => (r, c1, 0)
  | (none, c1) =>
      let r := fetcher v
      let c2 := if resultCacheable r then cacheSet c1 v r ttl now else c1
      (r, c2, 1)

/- ### Corporation-number I/O adapter response mapping
(src/modules/io/corpFetcher.ts lines 175-280) -/

/-- A parsed JSON response body, restricted to the shapes the adapter
inspects: `valid` (when present as a boolean), truthiness of a
`corporationNumber` field, and an optional `message` string.  `unparsable`
models a body on which `response.json()` rejects. -/
inductive JsonBody : Type
  | unparsable
  | obj (valid : Option Bool) (corporationNumber : Bool) (message : Option String)
deriving DecidableEq, Repr

structure HttpResponse : Type where
  status : Nat
  body : JsonBody
deriving DecidableEq, Repr

/-- `response.ok` of the Fetch API: status in the range 200-299. -/
def responseOk (r : HttpResponse) : Bool :=
  (200 ≤ r.status) && (r.status ≤ 299)

/-- `errorData.message || fallback`: JavaScript `||` falls back for a
missing and for an empty-string message. -/
def messageOrFallback (m : Option String) (fallback : String) : String :=
  match m with
  | some s => if s.length = 0 then fallback else s
  | none => fallback

/-- The response classification of `corpFetcher`
(src/modules/io/corpFetcher.ts lines 175-280) for a completed,
non-cancelled HTTP exchange.  A 2xx response whose body fails to parse
makes `response.json()` reject with a `SyntaxError`, which falls through
the catch block's name/message tests to the final
`{kind: "error", error: "network"}` return (lines 245-278). -/
def corpFetcherClassify (cn : String) (resp : HttpResponse) : CorpNoValidationResult :=
  if !responseOk resp then
    if 500 ≤ resp.status then
      .error .server (some ("Server error (" ++ toString resp.status ++ ")"))
    else if resp.status = 404 ∨ resp.status = 400 then
      match resp.body with
      | .unparsable => .invalid "Corporation number not found"
      | .obj _ _ m => .invalid (messageOrFallback m "Corporation number not found")
    else .error .server (some ("HTTP " ++ toString resp.status))
  else
    match resp.body with
    | .unparsable => .error .network (some "An unexpected network error occurred")
    | .obj valid corporationNumber m =>
        match valid with
        | some true => .valid cn
        | some false => .invalid (messageOrFallback m "Invalid corporation number")
        | none =>
            if corporationNumber then .valid cn
            else .invalid (messageOrFallback m "Corporation number validation failed")

/- ### Helper lemmas -/

theorem string_length_eq_zero_iff (s : String) : s.length = 0 ↔ s = "" := by
  cases s with
  | mk data => simp [String.length, List.length_eq_zero, String.ext_iff]

theorem whyNotPlausibleCorpNo_eq_none_iff (s : String) :
    whyNotPlausibleCorpNo s = none ↔ (s.length = 9 ∧ digitsOnly s = true) := by
  unfold whyNotPlausibleCorpNo
  split_ifs with h1 h2 h3 h4 <;> simp_all <;> omega

theorem toPlausibleCorpNo_of_plausible (s : String)
    (h : whyNotPlausibleCorpNo s = none) : toPlausibleCorpNo s = .ok s := by
  unfold toPlausibleCorpNo
  rw [h]

/- ### Claim theorems -/

/-- Claim C5: `whyNotPlausibleCorpNo` returns `none` exactly on the strings
`isPlausibleCorpNo` accepts, and every non-ok input receives exactly one
issue, chosen by checking emptiness first, then digit-only composition,
then length versus 9 — in particular a non-digit string of wrong length is
classified `contains_non_digit`, never a length issue. -/
theorem whyNotPlausibleCorpNo_characterizes : ∀ s : String,
    ((whyNotPlausibleCorpNo s = none) ↔ (isPlausibleCorpNo s = true)) ∧
    ((whyNotPlausibleCorpNo s = some .empty) ↔ s.length = 0) ∧
    ((whyNotPlausibleCorpNo s = some .contains_non_digit) ↔
      (s.length ≠ 0 ∧ digitsOnly s = false)) ∧
    ((whyNotPlausibleCorpNo s = some .too_short) ↔
      (s.length ≠ 0 ∧ digitsOnly s = true ∧ s.length < 9)) ∧
    ((whyNotPlausibleCorpNo s = some .too_long) ↔
      (s.length ≠ 0 ∧ digitsOnly s = true ∧ 9 < s.length)) := by
  intro s
  unfold isPlausibleCorpNo whyNotPlausibleCorpNo
  split_ifs with h1 h2 h3 h4 <;> simp_all
  omega

/-- Claim C6: on a string of exactly 9 digits `toPlausibleCorpNo` succeeds
and returns that string; on every other string it fails, and the thrown
message is the conversion text carrying the formatted message of exactly
the issue `whyNotPlausibleCorpNo` assigns to that string. -/
theorem toPlausibleCorpNo_spec : ∀ s : String,
    (nineDigitString s = true → toPlausibleCorpNo s = .ok s) ∧
    (nineDigitString s = false → ∃ issue,
      whyNotPlausibleCorpNo s = some issue ∧
      toPlausibleCorpNo s =
        .error ("Cannot convert to PlausibleCorpNo: " ++ formatCorpNoLocalIssue issue)) := by
  intro s
  constructor
  · intro h
    apply toPlausibleCorpNo_of_plausible
    rw [whyNotPlausibleCorpNo_eq_none_iff]
    simpa [nineDigitString] using h
  · intro h
    cases hw : whyNotPlausibleCorpNo s with
    | none =>
        exfalso
        have := (whyNotPlausibleCorpNo_eq_none_iff s).mp hw
        simp [nineDigitString, this.1, this.2] at h
    | some issue =>
        exact ⟨issue, rfl, by unfold toPlausibleCorpNo; rw [hw]⟩

/-- Witness for C6 on a 9-digit string and on a rejected string. -/
theorem toPlausibleCorpNo_spec_witness :
    toPlausibleCorpNo "123456789" = .ok "123456789" ∧
    ∃ issue, whyNotPlausibleCorpNo "12x" = some issue ∧
      toPlausibleCorpNo "12x" =
        .error ("Cannot convert to PlausibleCorpNo: " ++ formatCorpNoLocalIssue issue) := by
  exact ⟨(toPlausibleCorpNo_spec "123456789").1 (by decide),
         (toPlausibleCorpNo_spec "12x").2 (by decide)⟩

/-- Claim C7, counterexample: the name validator accepts a tab between two
letters (the regex class `\s` covers every whitespace character), while the
claim's reading — only a space character is allowed — rejects it.  The
letter predicate is instantiated with ASCII letters. -/
theorem isValidName_tab_counterexample :
    isValidName Char.isAlpha "a\tb" = true ∧
    ¬ specValidNameSpaceOnly Char.isAlpha "a\tb" := by
  constructor
  · decide
  · unfold specValidNameSpaceOnly
    decide

/-- Claim C7 as amended: for every letter predicate and every string, the
name validator accepts exactly when, after trimming, the length is between
1 and 50 and every character is a letter, a JavaScript whitespace
character (the `\s` class, not only the space), a hyphen, or an
apostrophe. -/
theorem isValidName_iff_spec :
    ∀ (letter : Char → Bool) (s : String),
      isValidName letter s = true ↔ specValidNameWhitespace letter s := by
  intro letter s
  unfold isValidName specValidNameWhitespace
  dsimp only
  split_ifs with h
  · simp only [Bool.false_eq_true, false_iff]
    rintro ⟨h1, h2, -⟩
    simp only [Bool.or_eq_true, decide_eq_true_eq] at h
    omega
  · simp only [Bool.or_eq_true, not_or, decide_eq_true_eq] at h
    simp only [List.all_eq_true, jsNameCharClass, Bool.or_eq_true, decide_eq_true_eq]
    constructor
    · intro hall
      refine ⟨by omega, by omega, ?_⟩
      intro c hc
      have := hall c hc
      tauto
    · rintro ⟨-, -, hall⟩ c hc
      have := hall c hc
      tauto

/-- Claim C10: a `change` event with the empty value — exactly what
`reset()` dispatches — puts the corporation-number field in `empty` with
value `""` while keeping `lastBlurAt` and `lastCheckedAt`; hence a field
that was ever blurred stays touched and does not return to the initial
state. -/
theorem corpNo_reset_keeps_blur (s : CorpNoFieldState) (t : Nat)
    (h : s.lastBlurAt.isSome = true) :
    (corpNoFieldReducer s (.change "" t)).tag = .empty ∧
    (corpNoFieldReducer s (.change "" t)).value = "" ∧
    (corpNoFieldReducer s (.change "" t)).lastBlurAt = s.lastBlurAt ∧
    (corpNoFieldReducer s (.change "" t)).lastCheckedAt = s.lastCheckedAt ∧
    corpNoIsTouched (corpNoFieldReducer s (.change "" t)) = true ∧
    corpNoFieldReducer s (.change "" t) ≠ corpNoInitialState := by
  obtain ⟨b, hb⟩ := Option.isSome_iff_exists.mp h
  refine ⟨rfl, rfl, rfl, rfl, ?_, ?_⟩
  · simp [corpNoFieldReducer, corpNoIsTouched, hb]
  · intro heq
    have := congrArg CorpNoFieldState.lastBlurAt heq
    simp [corpNoFieldReducer, corpNoInitialState, hb] at this

/-- Witness for C10 at a concrete blurred state. -/
theorem corpNo_reset_keeps_blur_witness :
    (corpNoFieldReducer
        { tag := .valid, value := "123456789", lastUpdatedAt := 3,
          lastBlurAt := some 5, lastCheckedAt := some 6, localIssue := none,
          remoteMessage := none, currentValue := some "123456789" }
        (.change "" 7)).lastBlurAt = some 5 ∧
    corpNoIsTouched
      (corpNoFieldReducer
        { tag := .valid, value := "123456789", lastUpdatedAt := 3,
          lastBlurAt := some 5, lastCheckedAt := some 6, localIssue := none,
          remoteMessage := none, currentValue := some "123456789" }
        (.change "" 7)) = true := by
  have h := corpNo_reset_keeps_blur
    { tag := .valid, value := "123456789", lastUpdatedAt := 3,
      lastBlurAt := some 5, lastCheckedAt := some 6, localIssue := none,
      remoteMessage := none, currentValue := some "123456789" }
    7 (by decide)
  exact ⟨h.2.2.1, h.2.2.2.2.1⟩

/-- Claim C2, evaluation at the failing input: after a reachable schedule
that drives the corporation-number field to `invalid` and then focuses it,
the tag is `active` yet `currentValue` is still non-null — the `focus`
case of the reducer clears `localIssue` and `remoteMessage` but not
`currentValue`, contradicting the declared invariant
`currentValue ≠ null ⟺ tag ∈ {checking, valid, invalid, error}`. -/
theorem corpNo_focus_retains_currentValue :
    (runCorpSys 1000 focusAfterInvalidSteps).fld.tag = .active ∧
    (runCorpSys 1000 focusAfterInvalidSteps).fld.currentValue = some "123456789" := by
  decide

/-- Claim C4, counterexample: a 2xx response whose parsed body has neither
a boolean `valid` field nor a legacy `corporationNumber` field is mapped
to `invalid` with the fallback message, not to `error` as the claim
states. -/
theorem corpFetcher_missing_validity_counterexample :
    corpFetcherClassify "123456789" { status := 200, body := .obj none false none } =
      .invalid "Corporation number validation failed" ∧
    resultIsError
      (corpFetcherClassify "123456789" { status := 200, body := .obj none false none }) =
      false := by
  decide

/-- Claim C4 as amended: the adapter maps a 2xx body with `valid:true` or
the legacy `corporationNumber` shape to `valid`; a 2xx body with an
explicit `valid:false` to `invalid`; status 404 or 400 to `invalid`; 5xx
to `error`; an unparseable 2xx body to `error`; and a parsed 2xx body
lacking both a validity field and the legacy shape to `invalid` with a
fallback message (not `error`). -/
theorem corpFetcherClassify_spec : ∀ (cn : String) (r : HttpResponse),
    (responseOk r = true → ∀ c m, r.body = .obj (some true) c m →
      corpFetcherClassify cn r = .valid cn) ∧
    (responseOk r = true → ∀ m, r.body = .obj none true m →
      corpFetcherClassify cn r = .valid cn) ∧
    (responseOk r = true → ∀ c m, r.body = .obj (some false) c m →
      corpFetcherClassify cn r = .invalid (messageOrFallback m "Invalid corporation number")) ∧
    (r.status = 404 ∨ r.status = 400 → ∃ msg, corpFetcherClassify cn r = .invalid msg) ∧
    (500 ≤ r.status →
      corpFetcherClassify cn r =
        .error .server (some ("Server error (" ++ toString r.status ++ ")"))) ∧
    (responseOk r = true → r.body = .unparsable →
      corpFetcherClassify cn r = .error .network (some "An unexpected network error occurred")) ∧
    (responseOk r = true → ∀ m, r.body = .obj none false m →
      corpFetcherClassify cn r =
        .invalid (messageOrFallback m "Corporation number validation failed")) := by
  intro cn r
  refine ⟨?_, ?_, ?_, ?_, ?_, ?_, ?_⟩
  · intro hok c m hb
    simp [corpFetcherClassify, hok, hb]
  · intro hok m hb
    simp [corpFetcherClassify, hok, hb]
  · intro hok c m hb
    simp [corpFetcherClassify, hok, hb]
  · intro hst
    have hok : responseOk r = false := by
      simp only [responseOk, Bool.and_eq_false_iff, decide_eq_false_iff_not]
      omega
    have h5 : ¬ 500 ≤ r.status := by omega
    cases hb : r.body with
    | unparsable =>
        exact ⟨"Corporation number not found",
          by simp [corpFetcherClassify, hok, h5, hst, hb]⟩
    | obj valid c m =>
        exact ⟨messageOrFallback m "Corporation number not found",
          by simp [corpFetcherClassify, hok, h5, hst, hb]⟩
  · intro hst
    have hok : responseOk r = false := by
      simp only [responseOk, Bool.and_eq_false_iff, decide_eq_false_iff_not]
      omega
    simp [corpFetcherClassify, hok, hst]
  · intro hok hb
    simp [corpFetcherClassify, hok, hb]
  · intro hok m hb
    simp [corpFetcherClassify, hok, hb]

/-- Witness for C4 at concrete responses covering each hypothesis. -/
theorem corpFetcherClassify_spec_witness :
    corpFetcherClassify "123456789" { status := 200, body := .obj (some true) false none } =
      .valid "123456789" ∧
    corpFetcherClassify "123456789" { status := 200, body := .obj none true none } =
      .valid "123456789" ∧
    corpFetcherClassify "123456789" { status := 200, body := .obj (some false) false (some "taken") } =
      .invalid "taken" ∧
    (∃ msg, corpFetcherClassify "123456789" { status := 404, body := .unparsable } =
      .invalid msg) ∧
    corpFetcherClassify "123456789" { status := 503, body := .unparsable } =
      .error .server (some "Server error (503)") ∧
    corpFetcherClassify "123456789" { status := 200, body := .unparsable } =
      .error .network (some "An unexpected network error occurred") := by
  refine ⟨?_, ?_, ?_, ?_, ?_, ?_⟩
  · exact (corpFetcherClassify_spec "123456789" _).1 (by decide) false none rfl
  · exact (corpFetcherClassify_spec "123456789" _).2.1 (by decide) none rfl
  · exact (corpFetcherClassify_spec "123456789" _).2.2.1 (by decide) false (some "taken") rfl
  · exact (corpFetcherClassify_spec "123456789" _).2.2.2.1 (Or.inl rfl)
  · exact (corpFetcherClassify_spec "123456789" _).2.2.2.2.1 (by decide)
  · exact (corpFetcherClassify_spec "123456789" _).2.2.2.2.2.1 (by decide) rfl

/-- Claim C3, counterexample: from the initial state of the simple field
machine (tag `empty`, value `""`), a single `evaluate` event — which the
blur-edge effect dispatches even when the tag is `empty` — applies the
validator to `""` and moves the tag to `invalid` while the value stays
empty, so `tag = empty ⟺ value = ""` fails in the right-to-left
direction. -/
theorem simpleField_evaluate_from_empty_counterexample :
    (runSimple isValidPhoneCA [.evaluate 1]).value = "" ∧
    (runSimple isValidPhoneCA [.evaluate 1]).tag ≠ .empty := by
  decide

/-- The part of the `tag=empty ⟺ value=""` invariant that survives:
`empty` always carries the empty value and `active` never does. -/
def SimpleTagValueInv (s : SimpleFieldState) : Prop :=
  (s.tag = .empty → s.value = "") ∧ (s.tag = .active → s.value ≠ "")

theorem simpleFieldReducer_preserves_inv (validator : String → Bool)
    (s : SimpleFieldState) (e : SimpleFieldEvent) (h : SimpleTagValueInv s) :
    SimpleTagValueInv (simpleFieldReducer validator s e) := by
  obtain ⟨he, ha⟩ := h
  cases e with
  | change v t =>
      by_cases hv : v.length = 0
      · have : v = "" := (string_length_eq_zero_iff v).mp hv
        constructor <;> simp [simpleFieldReducer, hv, this]
      · have : v ≠ "" := fun hv0 => hv ((string_length_eq_zero_iff v).mpr hv0)
        constructor <;> simp [simpleFieldReducer, hv, this]
  | blur t =>
      exact ⟨fun ht => he ht, fun ht => ha ht⟩
  | focus t =>
      by_cases hi : s.tag = .invalid
      · by_cases hv : s.value = ""
        · constructor <;> simp [simpleFieldReducer, hi, hv]
        · constructor <;> simp [simpleFieldReducer, hi, hv]
      · simpa [simpleFieldReducer, hi] using ⟨he, ha⟩
  | evaluate t =>
      by_cases hv : validator s.value = true
      · constructor <;> simp [simpleFieldReducer, hv]
      · constructor <;> simp [simpleFieldReducer, hv]

theorem simpleField_foldl_inv (validator : String → Bool)
    (events : List SimpleFieldEvent) :
    ∀ s : SimpleFieldState, SimpleTagValueInv s →
      SimpleTagValueInv (events.foldl (simpleFieldReducer validator) s) := by
  induction events with
  | nil => intro s h; exact h
  | cons e rest ih =>
      intro s h
      exact ih _ (simpleFieldReducer_preserves_inv validator s e h)

/-- Claim C3 as amended: in every reachable state of the simple field
machine, `tag = empty` implies `value = ""` and `tag = active` implies a
nonempty value, and the `evaluate` event always sets the tag to `valid` or
`invalid` according to the validator's verdict on the current value — but
the converse `value = "" → tag = empty` fails, because `evaluate` (which
the blur-edge effect dispatches even in the `empty` state) has no tag
guard and moves an empty field to `valid`/`invalid`. -/
theorem simpleField_tag_value_invariant :
    ∀ (validator : String → Bool) (events : List SimpleFieldEvent),
      ((runSimple validator events).tag = .empty →
        (runSimple validator events).value = "") ∧
      ((runSimple validator events).tag = .active →
        (runSimple validator events).value ≠ "") ∧
      ∀ (s : SimpleFieldState) (t : Nat),
        (simpleFieldReducer validator s (.evaluate t)).tag =
          (if validator s.value then .valid else .invalid) := by
  intro validator events
  have h := simpleField_foldl_inv validator events simpleInitialState
    ⟨fun _ => rfl, fun h => by simp [simpleInitialState] at h⟩
  refine ⟨h.1, h.2, ?_⟩
  intro s t
  by_cases hv : validator s.value = true <;> simp [simpleFieldReducer, hv]

/-- Witness for C3 discharging each hypothesis at concrete runs. -/
theorem simpleField_tag_value_invariant_witness :
    (runSimple isValidPhoneCA []).value = "" ∧
    (runSimple isValidPhoneCA [.change "+1" 1]).value ≠ "" ∧
    (simpleFieldReducer isValidPhoneCA simpleInitialState (.evaluate 1)).tag =
      (if isValidPhoneCA "" then .valid else .invalid) := by
  refine ⟨?_, ?_, ?_⟩
  · exact (simpleField_tag_value_invariant isValidPhoneCA []).1 (by decide)
  · exact (simpleField_tag_value_invariant isValidPhoneCA [.change "+1" 1]).2.1 (by decide)
  · exact (simpleField_tag_value_invariant isValidPhoneCA []).2.2 simpleInitialState 1

/-- Every entry stored in the cache is a non-`error` outcome. -/
def cacheAllOk (c : CorpNoCacheMap) : Prop :=
  ∀ p ∈ c, resultIsError p.2.result = false

theorem cacheAllOk_filter (c : CorpNoCacheMap) (f : String × CacheEntry → Bool)
    (h : cacheAllOk c) : cacheAllOk (c.filter f) := by
  intro p hp
  exact h p (List.mem_filter.mp hp).1

theorem cacheGet_preserves_ok (c : CorpNoCacheMap) (k : String) (now : Nat)
    (h : cacheAllOk c) : cacheAllOk (cacheGet c k now).2 := by
  unfold cacheGet
  cases hf : c.find? (fun p => p.1 == k) with
  | none => exact h
  | some p =>
      by_cases hexp : p.2.expiresAt < now
      · simpa [hexp] using cacheAllOk_filter c _ h
      · simpa [hexp] using h

theorem cacheSet_preserves_ok (c : CorpNoCacheMap) (k : String)
    (r : CorpNoValidationResult) (ttl now : Nat)
    (h : cacheAllOk c) (hr : resultCacheable r = true) :
    cacheAllOk (cacheSet c k r ttl now) := by
  intro p hp
  rcases List.mem_cons.mp hp with hp | hp
  · subst hp
    cases r with
    | valid _ => rfl
    | invalid _ => rfl
    | error _ _ => simp [resultCacheable] at hr
  · exact cacheAllOk_filter c _ h p hp

theorem abortCurrent_cache (s : CorpNoSys) : (abortCurrent s).cache = s.cache := by
  unfold abortCurrent
  cases s.currentReq <;> rfl

theorem abortOnLocalTag_cache (s : CorpNoSys) :
    (abortOnLocalTag s).cache = s.cache := by
  unfold abortOnLocalTag
  split_ifs with h
  · exact abortCurrent_cache s
  · rfl

theorem checkingEffect_preserves_ok (now ttl : Nat) (s : CorpNoSys)
    (h : cacheAllOk s.cache) : cacheAllOk (checkingEffect now ttl s).cache := by
  unfold checkingEffect
  split_ifs with ht
  · cases hv : s.fld.currentValue with
    | none => exact h
    | some v =>
        have hg := cacheGet_preserves_ok s.cache v now h
        rcases hq : cacheGet s.cache v now with ⟨o, c1⟩
        rw [hq] at hg
        dsimp only
        rw [hq]
        cases o with
        | some r => simpa using hg
        | none => simpa [abortCurrent_cache] using hg
  · exact h

theorem deliverResult_preserves_ok (i : Nat) (r : CorpNoValidationResult)
    (now ttl : Nat) (s : CorpNoSys) (h : cacheAllOk s.cache) :
    cacheAllOk (deliverResult i r now ttl s).cache := by
  unfold deliverResult
  cases hf : s.reqs.find? (fun q => q.id == i) with
  | none => exact h
  | some q =>
      by_cases hd : q.delivered = true
      · simpa [hd] using h
      · by_cases hc : s.currentReq = some i ∧ q.aborted = false
        · by_cases hr : resultCacheable r = true
          · simpa [hd, hc, hr] using
              cacheSet_preserves_ok s.cache q.value r ttl now h hr
          · simpa [hd, hc, hr] using h
        · simpa [hd, hc] using h

theorem corpStep_preserves_cacheOk (ttl : Nat) (s : CorpNoSys) (st : CorpStep)
    (h : cacheAllOk s.cache) : cacheAllOk (corpStep ttl s st).cache := by
  cases st with
  | change v t => simpa [corpStep, abortOnLocalTag_cache] using h
  | blur t => exact h
  | focus t => simpa [corpStep, abortOnLocalTag_cache] using h
  | evaluate t now =>
      simp only [corpStep]
      split_ifs with hc
      · exact checkingEffect_preserves_ok now ttl _ h
      · exact h
  | deliver i r now => exact deliverResult_preserves_ok i r now ttl s h

theorem corpSys_foldl_cacheOk (ttl : Nat) (steps : List CorpStep) :
    ∀ s : CorpNoSys, cacheAllOk s.cache →
      cacheAllOk (steps.foldl (corpStep ttl) s).cache := by
  induction steps with
  | nil => intro s h; exact h
  | cons st rest ih =>
      intro s h
      exact ih _ (corpStep_preserves_cacheOk ttl s st h)

/-- Claim C8: over every schedule of the corporation-number machine and
its effect layer, the cache only ever holds `valid` or `invalid`
outcomes — the resolution handler writes to the cache only when the result
kind is cacheable, so an `error` outcome is never stored. -/
theorem corpNo_cache_never_error :
    ∀ (ttl : Nat) (steps : List CorpStep) (p : String × CacheEntry),
      p ∈ (runCorpSys ttl steps).cache → resultIsError p.2.result = false := by
  intro ttl steps
  exact corpSys_foldl_cacheOk ttl steps initCorpNoSys (fun p hp => by simp [initCorpNoSys] at hp)

/-- Witness for C8 at a schedule that actually populates the cache. -/
theorem corpNo_cache_never_error_witness :
    resultIsError
      (({ result := .invalid "not found", expiresAt := 1004 } : CacheEntry)).result = false := by
  exact corpNo_cache_never_error 1000
    [.change "123456789" 1, .evaluate 2 3, .deliver 1 (.invalid "not found") 4]
    ("123456789", { result := .invalid "not found", expiresAt := 1004 })
    (by decide)

/-- Claim C1: a network result is never applied for a value the user has
edited away from.  (1) The reducer ignores `remote:ok`, `remote:invalid`
and `remote:error` outside the `checking` tag.  (2) A resolution whose
request id is no longer the current one causes no field transition.
(3) A resolution whose own cancellation signal has fired causes no field
transition.  (4) In the race schedule — a check started for value A, then
a change to B with a new check before A resolves — A's late resolution
changes nothing, the terminal state equals the one obtained from B's
resolution alone, and its tag is determined by B's result. -/
theorem corpNo_stale_resolution_no_transition :
    (∀ (fld : CorpNoFieldState) (r : CorpNoValidationResult) (t : Nat),
      fld.tag ≠ .checking →
        corpNoFieldReducer fld (.remoteOk r t) = fld ∧
        corpNoFieldReducer fld (.remoteInvalid r t) = fld ∧
        corpNoFieldReducer fld (.remoteError r t) = fld) ∧
    (∀ (i now ttl : Nat) (r : CorpNoValidationResult) (s : CorpNoSys),
      s.currentReq ≠ some i → (deliverResult i r now ttl s).fld = s.fld) ∧
    (∀ (i now ttl : Nat) (r : CorpNoValidationResult) (s : CorpNoSys) (q : ReqState),
      s.reqs.find? (fun q2 => q2.id == i) = some q → q.aborted = true →
      (deliverResult i r now ttl s).fld = s.fld) ∧
    (∀ (rA rB : CorpNoValidationResult),
      (corpStep 1000 raceSys (.deliver 1 rA 7)).fld = raceSys.fld ∧
      (runCorpSys 1000 (raceSteps ++ [.deliver 1 rA 7, .deliver 2 rB 8])).fld =
        (runCorpSys 1000 (raceSteps ++ [.deliver 2 rB 8])).fld ∧
      (runCorpSys 1000 (raceSteps ++ [.deliver 1 rA 7, .deliver 2 rB 8])).fld.tag =
        terminalTagFor rB) := by
  refine ⟨?_, ?_, ?_, ?_⟩
  · intro fld r t h
    refine ⟨?_, ?_, ?_⟩ <;> simp [corpNoFieldReducer, h]
  · intro i now ttl r s h
    unfold deliverResult
    cases hf : s.reqs.find? (fun q => q.id == i) with
    | none => rfl
    | some q =>
        by_cases hd : q.delivered = true
        · simp [hd]
        · have hng : ¬(s.currentReq = some i ∧ q.aborted = false) := fun hc => h hc.1
          simp [hd, hng]
  · intro i now ttl r s q hf ha
    unfold deliverResult
    rw [hf]
    by_cases hd : q.delivered = true
    · simp [hd]
    · simp [hd, ha]
  · intro rA rB
    refine ⟨rfl, ?_, ?_⟩ <;> cases rB <;> rfl

/-- Witness for C1 discharging each hypothesis at concrete inputs: the
reducer ignores a resolution in the initial (non-`checking`) state, a
resolution for a never-current request id is discarded, and in the race
schedule the late resolution of the superseded request 1 is discarded. -/
theorem corpNo_stale_resolution_no_transition_witness :
    corpNoFieldReducer corpNoInitialState (.remoteOk (.valid "123456789") 3) =
      corpNoInitialState ∧
    (deliverResult 9 (.valid "123456789") 7 5 initCorpNoSys).fld = initCorpNoSys.fld ∧
    (deliverResult 1 (.valid "111111111") 7 1000 raceSys).fld = raceSys.fld := by
  refine ⟨?_, ?_, ?_⟩
  · exact (corpNo_stale_resolution_no_transition.1 corpNoInitialState
      (.valid "123456789") 3 (by decide)).1
  · exact corpNo_stale_resolution_no_transition.2.1 9 7 5 (.valid "123456789")
      initCorpNoSys (by decide)
  · exact corpNo_stale_resolution_no_transition.2.2.1 1 7 1000 (.valid "111111111")
      raceSys { id := 1, value := "111111111", aborted := true, delivered := false }
      (by decide) rfl

/-- Claim C9: after a `valid` outcome for a plausible corporation number is
cached at `t0` with time-to-live `ttl`, a check at `t1` within the window
returns that outcome from the cache without invoking the adapter (fetch
count 0) and leaves the cache unchanged; at `t2` past the window the entry
reads as absent and is evicted on that read, and the check invokes the
adapter again (fetch count 1).  The machine-level schedules confirm the
same through the effect layer: the cache-hit run ends `valid` without
allocating a second request (counter stays 1), the expired run starts a
fresh request (counter reaches 2). -/
theorem corpNo_cache_roundTrip
    (fetcher : String → CorpNoValidationResult) (v : String)
    (t0 ttl t1 t2 ttl2 : Nat)
    (_hv : isPlausibleCorpNo v = true)
    (h1 : t1 ≤ t0 + ttl) (h2 : t0 + ttl < t2) :
    resolveCheck fetcher (cachedValidAt v t0 ttl) v t1 ttl2 =
      (.valid v, cachedValidAt v t0 ttl, 0) ∧
    cacheGet (cachedValidAt v t0 ttl) v t2 = (none, []) ∧
    (resolveCheck fetcher (cachedValidAt v t0 ttl) v t2 ttl2).1 = fetcher v ∧
    (resolveCheck fetcher (cachedValidAt v t0 ttl) v t2 ttl2).2.2 = 1 ∧
    (runCorpSys 100 cacheHitSteps).fld.tag = .valid ∧
    (runCorpSys 100 cacheHitSteps).counter = 1 ∧
    (runCorpSys 100 cacheExpiredSteps).fld.tag = .checking ∧
    (runCorpSys 100 cacheExpiredSteps).counter = 2 := by
  have hc : cachedValidAt v t0 ttl =
      [(v, { result := .valid v, expiresAt := t0 + ttl })] := by
    simp [cachedValidAt, cacheSet]
  have hn1 : ¬ (t0 + ttl < t1) := by omega
  have hg1 : cacheGet (cachedValidAt v t0 ttl) v t1 =
      (some (.valid v), cachedValidAt v t0 ttl) := by
    rw [hc]
    simp [cacheGet, hn1]
  have hg2 : cacheGet (cachedValidAt v t0 ttl) v t2 = (none, []) := by
    rw [hc]
    simp [cacheGet, h2]
  refine ⟨?_, hg2, ?_, ?_, by decide, by decide, by decide, by decide⟩
  · simp [resolveCheck, hg1]
  · simp [resolveCheck, hg2]
  · simp [resolveCheck, hg2]

/-- Witness for C9 at concrete times inside and outside the TTL window. -/
theorem corpNo_cache_roundTrip_witness :
    resolveCheck (fun _ => .invalid "no") (cachedValidAt "123456789" 0 10)
        "123456789" 10 7 =
      (.valid "123456789", cachedValidAt "123456789" 0 10, 0) ∧
    (resolveCheck (fun _ => .invalid "no") (cachedValidAt "123456789" 0 10)
        "123456789" 11 7).2.2 = 1 := by
  have h := corpNo_cache_roundTrip (fun _ => .invalid "no") "123456789" 0 10 10 11 7
    (by decide) (by decide) (by decide)
  exact ⟨h.1, h.2.2.2.1⟩

end VennOnboarding
